import Mathlib

/-!
# Verification of the stair-layout core (`src/elements/stairs.py`)

Shallow embedding of the stair generator `stair_from_polyline` and its
helpers.  Conventions of the embedding:

* IEEE doubles are modelled by exact rationals (`ℚ`).  All arithmetic the
  Python code performs on floats (`+`, `-`, `*`, `/`, `round`, `//`) is
  carried out exactly; statements about floating-point round-off are read
  at this exact level.
* `Rhino.Geometry` points and vectors are both modelled by `Vec3` (the
  Python code uses `Point3d` and `Vector3d`, whose arithmetic coincides
  for the operations used here).
* `rs.coercecurve` / `Curve.TryGetPolyline` are external host calls; a
  `Guide` value records their observable outcome (no curve, a curve with
  no polyline form, or a polyline with a concrete point list).
* `rg.Extrusion.Create` is an external kernel call that may return null;
  it is modelled by a success oracle `ℕ → Bool` indexed by call order.
  The walker's emission log records every `Extrusion.Create` call with
  its full argument data (plane origin and axes, rectangle extents,
  extrusion height); the Python `breps` list is the sublist of the log
  accepted by the oracle.
-/

/-- 3D point / vector with exact rational coordinates
(embeds `rg.Point3d` and `rg.Vector3d`). -/
structure Vec3 where
  x : ℚ
  y : ℚ
  z : ℚ
deriving DecidableEq, Repr

/-- Componentwise sum (embeds `Point3d + Vector3d` / `Vector3d + Vector3d`). -/
def Vec3.add (a b : Vec3) : Vec3 := ⟨a.x + b.x, a.y + b.y, a.z + b.z⟩

/-- Componentwise difference (embeds `p1 - p0`). -/
def Vec3.sub (a b : Vec3) : Vec3 := ⟨a.x - b.x, a.y - b.y, a.z - b.z⟩

/-- Scalar multiple (embeds `Vector3d * scalar`). -/
def Vec3.smul (c : ℚ) (v : Vec3) : Vec3 := ⟨c * v.x, c * v.y, c * v.z⟩

/-- The zero vector. -/
def Vec3.zero : Vec3 := ⟨0, 0, 0⟩

/-- `rg.Vector3d.ZAxis`, the world up direction. -/
def Vec3.zAxis : Vec3 := ⟨0, 0, 1⟩

/-- `rg.Vector3d.CrossProduct`. -/
def Vec3.cross (a b : Vec3) : Vec3 :=
  ⟨a.y * b.z - a.z * b.y, a.z * b.x - a.x * b.z, a.x * b.y - a.y * b.x⟩

/-- Squared Euclidean length. -/
def Vec3.sqLen (v : Vec3) : ℚ := v.x * v.x + v.y * v.y + v.z * v.z

/-- Squared distance between two points (`p0.DistanceTo(p1)` squared). -/
def Vec3.sqDist (a b : Vec3) : ℚ := Vec3.sqLen (Vec3.sub b a)

/-- Rational square root helper: exact whenever the radicand is the square
of a rational (then its reduced numerator and denominator are perfect
squares); on other radicands it is an integer-square-root approximation.
Every theorem below either evaluates it only at perfect squares or is
insensitive to its value (step counts use `sqrtFloorQ`, which is exact for
all rationals). -/
def ratSqrt (q : ℚ) : ℚ :=
  if q ≤ 0 then 0 else (Nat.sqrt q.num.toNat : ℚ) / (Nat.sqrt q.den : ℚ)

/-- `rg.Vector3d.Unitize` (in-place in Rhino, functional here): a zero
vector cannot be unitized and is left unchanged (Rhino returns `false`
and does not modify the vector); otherwise the vector is scaled to unit
length. -/
def unitize (v : Vec3) : Vec3 :=
  if Vec3.sqLen v = 0 then v else Vec3.smul (1 / ratSqrt (Vec3.sqLen v)) v

/-- `_segment_direction(p0, p1)`: `v = p1 - p0; v.Unitize(); return v`. -/
def segment_direction (p0 p1 : Vec3) : Vec3 := unitize (Vec3.sub p1 p0)

/-- `_left_vector(dir)`: `left = CrossProduct(ZAxis, dir); left.Unitize()`. -/
def left_vector (d : Vec3) : Vec3 := unitize (Vec3.cross Vec3.zAxis d)

/-- The `StairSide` literal type `"left" | "right" | "center"`. -/
inductive StairSide
  | left
  | right
  | center
deriving DecidableEq, Repr

/-- `_alignment_offset(width, side)`.  The Python `raise ValueError` branch
is unreachable here because `StairSide` has exactly the three legal
values. -/
def alignment_offset (width : ℚ) (side : StairSide) : ℚ :=
  match side with
  | .center => -width * (1 / 2)
  | .left => 0
  | .right => -width

/-- Python 3 `round` on an exact rational: round half to even. -/
def pyRound (q : ℚ) : ℤ :=
  let f := Int.floor q
  let r := q - (f : ℚ)
  if r < 1 / 2 then f
  else if 1 / 2 < r then f + 1
  else if f % 2 = 0 then f else f + 1

/-- `riser_count = max(1, int(round(total_height_mm / riser_height_mm)))`. -/
def riser_count (total nominal : ℚ) : ℤ := max 1 (pyRound (total / nominal))

/-- `riser_height = total_height_mm / riser_count`. -/
def riser_height (total nominal : ℚ) : ℚ :=
  total / ((riser_count total nominal : ℤ) : ℚ)

/-- `tread_count = riser_count - 1`. -/
def tread_count (total nominal : ℚ) : ℤ := riser_count total nominal - 1

/-- `tread_count` as a natural number; `tread_count_toNat` below shows the
coercion is faithful (`tread_count ≥ 0` always). -/
def tread_countN (total nominal : ℚ) : ℕ := (tread_count total nominal).toNat

/-- Floor of the square root of a nonnegative rational, exactly:
`⌊√q⌋ = Nat.sqrt ⌊q⌋` (since `(n+1)^2 > ⌊q⌋` forces `(n+1)^2 ≥ ⌊q⌋+1 > q`). -/
def sqrtFloorQ (q : ℚ) : ℕ := Nat.sqrt (Int.toNat (Int.floor q))

/-- Ceiling of the square root of a nonnegative rational, exactly. -/
def sqrtCeilQ (q : ℚ) : ℕ :=
  let n := sqrtFloorQ q
  if q ≤ (n : ℚ) * (n : ℚ) then n else n + 1

/-- `steps_here = int(run_length // tread_depth_mm)` where
`run_length = p0.DistanceTo(p1) = √(sqDist p0 p1)`.  Python float floor
division rounds toward minus infinity, and `int` of that exact integer
value is itself, so for `td > 0` this is `⌊√S / td⌋ = ⌊√(S/td²)⌋`, and for
`td < 0` it is `⌊-√(S/td²)⌋ = -⌈√(S/td²)⌉`.  (`td = 0` raises
`ZeroDivisionError` in Python and is outside the embedded domain; every
theorem below that touches this definition assumes `td ≠ 0`.) -/
def steps_here (p0 p1 : Vec3) (td : ℚ) : ℤ :=
  if 0 < td then (sqrtFloorQ (Vec3.sqDist p0 p1 / (td * td)) : ℤ)
  else -(sqrtCeilQ (Vec3.sqDist p0 p1 / (td * td)) : ℤ)

/-- Kind of an emitted solid. -/
inductive VolKind
  | tread
  | landing
deriving DecidableEq, Repr

/-- One `rg.Extrusion.Create` call of the walker, with its full argument
data: the rectangle lies in the plane `Plane(origin, xDir, yDir)` with
extents `[0, extentX] × [0, extentY]` and is extruded by `thickness`.
`flight` is the segment index `i`, `sIndex` the forward multiplier
(`s` for a tread, `steps_here` for a landing), and `elev` the value of
`current_z` at emission (observable as
`origin - base - sIndex·td·xDir = elev · ZAxis`). -/
structure Volume where
  kind : VolKind
  flight : ℕ
  sIndex : ℤ
  origin : Vec3
  xDir : Vec3
  yDir : Vec3
  extentX : ℚ
  extentY : ℚ
  thickness : ℚ
  elev : ℚ
deriving DecidableEq, Repr

/-- The walker's mutable state: `current_step`, `current_z`, and the
emission log (every `Extrusion.Create` call, in order). -/
structure WalkState where
  step : ℕ
  zAcc : ℚ
  out : List Volume
deriving Repr

/-- The tread emitted for loop index `s` from elevation `z`
(lines 108–120 of `stairs.py`). -/
def treadVolume (i s : ℕ) (base dirV leftV : Vec3) (td w th z : ℚ) : Volume :=
  ⟨.tread, i, (s : ℤ),
   Vec3.add (Vec3.add base (Vec3.smul ((s : ℚ) * td) dirV)) (Vec3.smul z Vec3.zAxis),
   dirV, leftV, td, w, th, z⟩

/-- The landing emitted after a flight with `sh = steps_here`, from
elevation `z` (lines 131–145 of `stairs.py`); its forward offset uses
`tread_depth_mm`, its rectangle depth `landing_depth_mm`. -/
def landingVolume (i : ℕ) (sh : ℤ) (base dirV leftV : Vec3)
    (td ld w th z : ℚ) : Volume :=
  ⟨.landing, i, sh,
   Vec3.add (Vec3.add base (Vec3.smul ((sh : ℤ) * td) dirV)) (Vec3.smul z Vec3.zAxis),
   dirV, leftV, ld, w, th, z⟩

/-- The tread loop of one flight (lines 104–125): for each `s` in
`range(steps_here)`, break as soon as `current_step >= tread_count`,
otherwise emit a tread, then `current_step += 1; current_z += riser_height`. -/
def treadLoop (i : ℕ) (base dirV leftV : Vec3) (tc : ℕ)
    (td w th rh : ℚ) : List ℕ → WalkState → WalkState
  | [], st => st
  | s :: rest, st =>
      if tc ≤ st.step then st
      else
        treadLoop i base dirV leftV tc td w th rh rest
          ⟨st.step + 1, st.zAcc + rh,
           st.out ++ [treadVolume i s base dirV leftV td w th st.zAcc]⟩

/-- One iteration of the polyline walk (lines 88–147): frame and offset
for segment `i`, the tread loop, then the landing test
`if i < pl.Count - 2 and current_step < tread_count`.  `isLast` is true
exactly when no further segment follows (`i = pl.Count - 2`). -/
def doFlight (i : ℕ) (p0 p1 : Vec3) (isLast : Bool) (tc : ℕ)
    (td w th ld rh : ℚ) (side : StairSide) (st : WalkState) : WalkState :=
  let dirV := segment_direction p0 p1
  let leftV := left_vector dirV
  let sh := steps_here p0 p1 td
  let base := Vec3.add p0 (Vec3.smul (alignment_offset w side) leftV)
  let st1 := treadLoop i base dirV leftV tc td w th rh (List.range sh.toNat) st
  if isLast = false ∧ st1.step < tc then
    ⟨st1.step, st1.zAcc,
     st1.out ++ [landingVolume i sh base dirV leftV td ld w th st1.zAcc]⟩
  else st1

/-- The walk over all segments, `for i in range(pl.Count - 1)`:
consecutive point pairs in order, with the flight index threaded. -/
def walkFlights (tc : ℕ) (td w th ld rh : ℚ) (side : StairSide) :
    ℕ → List Vec3 → WalkState → WalkState
  | i, p0 :: p1 :: rest, st =>
      walkFlights tc td w th ld rh side (i + 1) (p1 :: rest)
        (doFlight i p0 p1 rest.isEmpty tc td w th ld rh side st)
  | _, _, st => st

/-- The whole layout computation on an already-coerced point list, from
the initial state `current_step = 0`, `current_z = 0`, empty log. -/
def stair_walk (pts : List Vec3) (total nominal td w : ℚ) (side : StairSide)
    (th ld : ℚ) : WalkState :=
  walkFlights (tread_countN total nominal) td w th ld
    (riser_height total nominal) side 0 pts ⟨0, 0, []⟩

/-- Outcome of the host calls `rs.coercecurve` / `TryGetPolyline` on the
guide argument. -/
inductive Guide
  | notACurve
  | notAPolyline
  | polyline (pts : List Vec3)

/-- The two error conditions of `_coerce_polyline`, the spec's
`InvalidGuideError` (`TypeError("guide must be a Curve")`) and
`NonPolylineGuideError` (`TypeError("guide must be a polyline")`). -/
inductive StairError
  | invalidGuide
  | nonPolylineGuide
deriving DecidableEq, Repr

/-- `_coerce_polyline` (lines 14–23): fail if the guide is not a curve;
fail if it has no polyline form or fewer than 2 points; otherwise return
the point list. -/
def coerce_polyline : Guide → Except StairError (List Vec3)
  | .notACurve => .error .invalidGuide
  | .notAPolyline => .error .nonPolylineGuide
  | .polyline pts =>
      if pts.length < 2 then .error .nonPolylineGuide else .ok pts

/-- `stair_from_polyline` (lines 53–149): coerce the guide, then walk;
the result is the emission log (one entry per `Extrusion.Create` call). -/
def stair_from_polyline (guide : Guide) (total nominal td w : ℚ)
    (side : StairSide) (th ld : ℚ) : Except StairError (List Volume) :=
  match coerce_polyline guide with
  | .error e => .error e
  | .ok pts => .ok (stair_walk pts total nominal td w side th ld).out

/-- The Python `breps` list: of the `Extrusion.Create` calls in the log,
exactly those the kernel oracle accepts (`if ext: breps.append(...)`),
in order; call indices count from 0 in emission order. -/
def breps_of (extOk : ℕ → Bool) (log : List Volume) : List Volume :=
  ((log.enum).filter (fun kv => extOk kv.1)).map (fun kv => kv.2)

/-- The treads of a log, in emission order. -/
def treads (l : List Volume) : List Volume :=
  l.filter (fun v => v.kind = VolKind.tread)

/-- The landings of a log, in emission order. -/
def landings (l : List Volume) : List Volume :=
  l.filter (fun v => v.kind = VolKind.landing)

/-- Per-flight step capacities `⌊segment_length / tread_depth⌋`, one per
consecutive point pair. -/
def flight_caps (td : ℚ) : List Vec3 → List ℕ
  | p0 :: p1 :: rest => (steps_here p0 p1 td).toNat :: flight_caps td (p1 :: rest)
  | _ => []

/-- `base_origin = p0 + left * _alignment_offset(width_mm, side)`
(line 99 of `stairs.py`). -/
def flight_base (p0 p1 : Vec3) (w : ℚ) (side : StairSide) : Vec3 :=
  Vec3.add p0 (Vec3.smul (alignment_offset w side) (left_vector (segment_direction p0 p1)))

/-- The state after the tread loop of flight `i`
(`flight_base`/`segment_direction`/`left_vector` applied once, then the
tread loop over `range(steps_here)`). -/
def flightTreadState (i : ℕ) (p0 p1 : Vec3) (tc : ℕ) (td w th rh : ℚ)
    (side : StairSide) (st : WalkState) : WalkState :=
  treadLoop i (flight_base p0 p1 w side) (segment_direction p0 p1)
    (left_vector (segment_direction p0 p1)) tc td w th rh
    (List.range (steps_here p0 p1 td).toNat) st

/-- The elevation invariant of the walk: the treads logged so far have
elevations `0, rh, 2·rh, …` in order, and `current_z = current_step · rh`. -/
def elevInv (rh : ℚ) (st : WalkState) : Prop :=
  (treads st.out).map Volume.elev
      = List.map (fun k : ℕ => (k : ℚ) * rh) (List.range st.step) ∧
  st.zAcc = (st.step : ℚ) * rh

/-! ## Basic facts about the riser plan -/

lemma riser_count_ge_one (total nominal : ℚ) : 1 ≤ riser_count total nominal :=
  le_max_left 1 _

lemma tread_count_nonneg (total nominal : ℚ) : 0 ≤ tread_count total nominal := by
  have h := riser_count_ge_one total nominal
  unfold tread_count
  omega

lemma tread_countN_cast (total nominal : ℚ) :
    ((tread_countN total nominal : ℕ) : ℤ) = tread_count total nominal := by
  have h := tread_count_nonneg total nominal
  unfold tread_countN
  omega

lemma riser_count_cast_ne_zero (total nominal : ℚ) :
    (((riser_count total nominal : ℤ) : ℚ)) ≠ 0 := by
  have h := riser_count_ge_one total nominal
  exact_mod_cast (by omega : riser_count total nominal ≠ 0)

lemma riser_count_scenA : riser_count 3000 170 = 18 := by
  norm_num [riser_count, pyRound]

/-- C2: the riser budget planner computes
`riser_count = max(1, round(total/riser)) ≥ 1`, then
`riser_height = total / riser_count` so that
`riser_count · riser_height = total` exactly, and
`tread_count = riser_count − 1 ≥ 0`; `total_height = 3000` with nominal
riser `170` yields `riser_count = 18` and `tread_count = 17`. -/
theorem C2_riser_budget_planner (total nominal : ℚ)
    (ht : 0 < total) (hn : 0 < nominal) :
    riser_count total nominal = max 1 (pyRound (total / nominal)) ∧
    1 ≤ riser_count total nominal ∧
    riser_height total nominal = total / ((riser_count total nominal : ℤ) : ℚ) ∧
    ((riser_count total nominal : ℤ) : ℚ) * riser_height total nominal = total ∧
    tread_count total nominal = riser_count total nominal - 1 ∧
    0 ≤ tread_count total nominal ∧
    riser_count 3000 170 = 18 ∧
    tread_count 3000 170 = 17 := by
  refine ⟨rfl, riser_count_ge_one _ _, rfl, ?_, rfl, tread_count_nonneg _ _,
    riser_count_scenA, ?_⟩
  · rw [riser_height, mul_comm, div_mul_cancel₀ _ (riser_count_cast_ne_zero total nominal)]
  · rw [tread_count, riser_count_scenA]
    norm_num

/-- Witness for `C2_riser_budget_planner` at `total = 3000`, `nominal = 170`. -/
theorem C2_witness :
    riser_count 3000 170 = max 1 (pyRound (3000 / 170)) ∧
    1 ≤ riser_count 3000 170 ∧
    riser_height 3000 170 = 3000 / ((riser_count 3000 170 : ℤ) : ℚ) ∧
    ((riser_count 3000 170 : ℤ) : ℚ) * riser_height 3000 170 = 3000 ∧
    tread_count 3000 170 = riser_count 3000 170 - 1 ∧
    0 ≤ tread_count 3000 170 ∧
    riser_count 3000 170 = 18 ∧
    tread_count 3000 170 = 17 :=
  C2_riser_budget_planner 3000 170 (by norm_num) (by norm_num)

/-! ## Degenerate frames (claim C8) -/

/-- C8 counterexample: on a zero-length segment, `_segment_direction`
returns the unchanged zero vector, which is not a unit vector, so
`forward` does not fall back to any fixed reference *direction*; likewise
for `forward` parallel to world-up, `_left_vector` returns the zero
vector, not a fixed horizontal reference axis. -/
theorem C8_counterexample :
    segment_direction ⟨0, 0, 0⟩ ⟨0, 0, 0⟩ = Vec3.zero ∧
    Vec3.sqLen (segment_direction ⟨0, 0, 0⟩ ⟨0, 0, 0⟩) ≠ 1 ∧
    left_vector Vec3.zAxis = Vec3.zero ∧
    Vec3.sqLen (left_vector Vec3.zAxis) ≠ 1 := by
  norm_num [segment_direction, left_vector, unitize, Vec3.sub, Vec3.cross,
    Vec3.sqLen, Vec3.zero, Vec3.zAxis]

/-- C8 (amended): the frame calculation is total — no segment geometry
raises — but the degenerate fallbacks are the unchanged zero vector
(`Unitize` leaves a vector it cannot unitize unmodified), not a fixed unit
reference direction: a zero-length segment gives `forward = 0`, and a
`forward` whose cross product with world-up vanishes gives `left = 0`. -/
theorem C8_amended_total_frame :
    (∀ p : Vec3, segment_direction p p = Vec3.zero) ∧
    (∀ d : Vec3, Vec3.cross Vec3.zAxis d = Vec3.zero → left_vector d = Vec3.zero) := by
  constructor
  · intro p
    simp [segment_direction, unitize, Vec3.sub, Vec3.sqLen, Vec3.zero]
  · intro d h
    simp [left_vector, h, unitize, Vec3.sqLen, Vec3.zero]

/-- Witness for `C8_amended_total_frame` at concrete degenerate inputs. -/
theorem C8_witness :
    segment_direction ⟨1, 2, 3⟩ ⟨1, 2, 3⟩ = Vec3.zero ∧
    left_vector ⟨0, 0, 2⟩ = Vec3.zero :=
  ⟨C8_amended_total_frame.1 ⟨1, 2, 3⟩,
   C8_amended_total_frame.2 ⟨0, 0, 2⟩ (by norm_num [Vec3.cross, Vec3.zAxis, Vec3.zero])⟩

/-! ## The walker never runs once the budget is exhausted -/

lemma treadLoop_break (i : ℕ) (b d l : Vec3) (tc : ℕ) (td w th rh : ℚ)
    (L : List ℕ) (st : WalkState) (h : tc ≤ st.step) :
    treadLoop i b d l tc td w th rh L st = st := by
  cases L with
  | nil => rfl
  | cons s rest => simp [treadLoop, h]

lemma doFlight_fix (i : ℕ) (p0 p1 : Vec3) (isLast : Bool) (tc : ℕ)
    (td w th ld rh : ℚ) (side : StairSide) (st : WalkState) (h : tc ≤ st.step) :
    doFlight i p0 p1 isLast tc td w th ld rh side st = st := by
  unfold doFlight
  simp only [treadLoop_break _ _ _ _ _ _ _ _ _ _ _ h]
  have hc : ¬(isLast = false ∧ st.step < tc) := by
    rintro ⟨-, hlt⟩
    omega
  simp [hc]

lemma walkFlights_fix (tc : ℕ) (td w th ld rh : ℚ) (side : StairSide)
    (i : ℕ) (pts : List Vec3) (st : WalkState) (h : tc ≤ st.step) :
    walkFlights tc td w th ld rh side i pts st = st := by
  induction pts generalizing i st with
  | nil => rfl
  | cons p rest ih =>
      cases rest with
      | nil => rfl
      | cons p1 rest1 =>
          rw [walkFlights, doFlight_fix _ _ _ _ _ _ _ _ _ _ _ _ h, ih _ _ h]

lemma stair_walk_tc_zero (pts : List Vec3) (total nominal td w : ℚ)
    (side : StairSide) (th ld : ℚ) (h : tread_countN total nominal = 0) :
    (stair_walk pts total nominal td w side th ld).out = [] := by
  unfold stair_walk
  rw [h, walkFlights_fix _ _ _ _ _ _ _ _ _ _ (Nat.zero_le _)]

lemma tread_countN_neg_total : tread_countN (-3000) 170 = 0 := by
  norm_num [tread_countN, tread_count, riser_count, pyRound]

/-- C9 (code bug): `stair_from_polyline` performs no parameter
validation.  With a perfectly valid 2-point guide and a *negative*
`total_height_mm = -3000`, the call does not raise any error (there is no
`InvalidParameterError` anywhere in the code): it silently returns an
empty list (the plan degenerates to `riser_count = 1`, `tread_count = 0`). -/
theorem C9_no_parameter_validation :
    stair_from_polyline (.polyline [⟨0, 0, 0⟩, ⟨5000, 0, 0⟩]) (-3000) 170 270 1200
      .center 150 270 = .ok [] := by
  have h1 : stair_from_polyline (.polyline [⟨0, 0, 0⟩, ⟨5000, 0, 0⟩]) (-3000) 170 270 1200
      .center 150 270
      = .ok (stair_walk [⟨0, 0, 0⟩, ⟨5000, 0, 0⟩] (-3000) 170 270 1200 .center 150 270).out :=
    rfl
  rw [h1, stair_walk_tc_zero _ _ _ _ _ _ _ _ tread_countN_neg_total]

/-! ## Structural lemmas about the tread loop -/

lemma treads_append (l1 l2 : List Volume) :
    treads (l1 ++ l2) = treads l1 ++ treads l2 := by
  simp [treads]

lemma landings_append (l1 l2 : List Volume) :
    landings (l1 ++ l2) = landings l1 ++ landings l2 := by
  simp [landings]

lemma treadVolume_kind (i s : ℕ) (b d l : Vec3) (td w th z : ℚ) :
    (treadVolume i s b d l td w th z).kind = VolKind.tread := rfl

lemma landingVolume_kind (i : ℕ) (sh : ℤ) (b d l : Vec3) (td ld w th z : ℚ) :
    (landingVolume i sh b d l td ld w th z).kind = VolKind.landing := rfl

lemma treads_treadVolume (i s : ℕ) (b d l : Vec3) (td w th z : ℚ) :
    treads [treadVolume i s b d l td w th z] = [treadVolume i s b d l td w th z] := by
  simp [treads, treadVolume]

lemma treads_landingVolume (i : ℕ) (sh : ℤ) (b d l : Vec3) (td ld w th z : ℚ) :
    treads [landingVolume i sh b d l td ld w th z] = [] := by
  simp [treads, landingVolume]

lemma landings_treadVolume (i s : ℕ) (b d l : Vec3) (td w th z : ℚ) :
    landings [treadVolume i s b d l td w th z] = [] := by
  simp [landings, treadVolume]

lemma landings_landingVolume (i : ℕ) (sh : ℤ) (b d l : Vec3) (td ld w th z : ℚ) :
    landings [landingVolume i sh b d l td ld w th z]
      = [landingVolume i sh b d l td ld w th z] := by
  simp [landings, landingVolume]

lemma treadLoop_step (i : ℕ) (b d l : Vec3) (tc : ℕ) (td w th rh : ℚ)
    (L : List ℕ) (st : WalkState) :
    (treadLoop i b d l tc td w th rh L st).step
      = max st.step (min (st.step + L.length) tc) := by
  induction L generalizing st with
  | nil =>
      rw [show treadLoop i b d l tc td w th rh [] st = st from rfl]
      simp only [List.length_nil]
      omega
  | cons s rest ih =>
      by_cases h : tc ≤ st.step
      · rw [treadLoop_break _ _ _ _ _ _ _ _ _ _ _ h]
        simp only [List.length_cons]
        omega
      · rw [treadLoop, if_neg h, ih]
        simp only [List.length_cons]
        omega

lemma treadLoop_append (i : ℕ) (b d l : Vec3) (tc : ℕ) (td w th rh : ℚ)
    (L1 L2 : List ℕ) (st : WalkState) :
    treadLoop i b d l tc td w th rh (L1 ++ L2) st
      = treadLoop i b d l tc td w th rh L2 (treadLoop i b d l tc td w th rh L1 st) := by
  induction L1 generalizing st with
  | nil => rfl
  | cons s rest ih =>
      by_cases h : tc ≤ st.step
      · rw [List.cons_append, treadLoop_break _ _ _ _ _ _ _ _ _ _ _ h,
            treadLoop_break _ _ _ _ _ _ _ _ _ _ _ h,
            treadLoop_break _ _ _ _ _ _ _ _ _ _ _ h]
      · rw [List.cons_append, treadLoop, treadLoop, if_neg h, if_neg h, ih]

lemma treadLoop_landings (i : ℕ) (b d l : Vec3) (tc : ℕ) (td w th rh : ℚ)
    (L : List ℕ) (st : WalkState) :
    landings (treadLoop i b d l tc td w th rh L st).out = landings st.out := by
  induction L generalizing st with
  | nil => rfl
  | cons s rest ih =>
      by_cases h : tc ≤ st.step
      · rw [treadLoop_break _ _ _ _ _ _ _ _ _ _ _ h]
      · rw [treadLoop, if_neg h, ih]
        simp [landings_append, landings_treadVolume]

lemma treadLoop_mem (i : ℕ) (b d l : Vec3) (tc : ℕ) (td w th rh : ℚ)
    (L : List ℕ) (st : WalkState) (v : Volume)
    (hv : v ∈ (treadLoop i b d l tc td w th rh L st).out) :
    v ∈ st.out ∨ ∃ s z, v = treadVolume i s b d l td w th z := by
  induction L generalizing st with
  | nil => exact Or.inl hv
  | cons s rest ih =>
      by_cases h : tc ≤ st.step
      · rw [treadLoop_break _ _ _ _ _ _ _ _ _ _ _ h] at hv
        exact Or.inl hv
      · rw [treadLoop, if_neg h] at hv
        rcases ih _ hv with h1 | h1
        · rcases List.mem_append.mp h1 with h2 | h2
          · exact Or.inl h2
          · exact Or.inr ⟨s, st.zAcc, List.mem_singleton.mp h2⟩
        · exact Or.inr h1

lemma elevInv_init (rh : ℚ) : elevInv rh ⟨0, 0, []⟩ := by
  constructor
  · simp [treads]
  · simp

lemma elevInv_treads_length (rh : ℚ) (st : WalkState) (h : elevInv rh st) :
    (treads st.out).length = st.step := by
  have h2 : ((treads st.out).map Volume.elev).length
      = (List.map (fun k : ℕ => (k : ℚ) * rh) (List.range st.step)).length := by rw [h.1]
  rw [List.length_map, List.length_map, List.length_range] at h2
  exact h2

lemma treadLoop_elevInv (i : ℕ) (b d l : Vec3) (tc : ℕ) (td w th rh : ℚ)
    (L : List ℕ) (st : WalkState) (h : elevInv rh st) :
    elevInv rh (treadLoop i b d l tc td w th rh L st) := by
  induction L generalizing st with
  | nil => exact h
  | cons s rest ih =>
      by_cases hb : tc ≤ st.step
      · rw [treadLoop_break _ _ _ _ _ _ _ _ _ _ _ hb]
        exact h
      · rw [treadLoop, if_neg hb]
        apply ih
        obtain ⟨h1, h2⟩ := h
        constructor
        · simp only [treads_append, List.map_append, h1, treads_treadVolume,
            List.range_succ]
          simp [treadVolume, h2]
        · simp only [h2]
          push_cast
          ring

/-! ## Structural lemmas about one flight -/

lemma doFlight_eq (i : ℕ) (p0 p1 : Vec3) (isLast : Bool) (tc : ℕ)
    (td w th ld rh : ℚ) (side : StairSide) (st : WalkState) :
    doFlight i p0 p1 isLast tc td w th ld rh side st =
      if isLast = false ∧ (flightTreadState i p0 p1 tc td w th rh side st).step < tc then
        ⟨(flightTreadState i p0 p1 tc td w th rh side st).step,
         (flightTreadState i p0 p1 tc td w th rh side st).zAcc,
         (flightTreadState i p0 p1 tc td w th rh side st).out ++
           [landingVolume i (steps_here p0 p1 td) (flight_base p0 p1 w side)
             (segment_direction p0 p1) (left_vector (segment_direction p0 p1)) td ld w th
             (flightTreadState i p0 p1 tc td w th rh side st).zAcc]⟩
      else flightTreadState i p0 p1 tc td w th rh side st := rfl

lemma doFlight_step (i : ℕ) (p0 p1 : Vec3) (isLast : Bool) (tc : ℕ)
    (td w th ld rh : ℚ) (side : StairSide) (st : WalkState) :
    (doFlight i p0 p1 isLast tc td w th ld rh side st).step
      = max st.step (min (st.step + (steps_here p0 p1 td).toNat) tc) := by
  rw [doFlight_eq]
  have h : (flightTreadState i p0 p1 tc td w th rh side st).step
      = max st.step (min (st.step + (steps_here p0 p1 td).toNat) tc) := by
    rw [flightTreadState, treadLoop_step, List.length_range]
  split
  · exact h
  · exact h

lemma doFlight_elevInv (i : ℕ) (p0 p1 : Vec3) (isLast : Bool) (tc : ℕ)
    (td w th ld rh : ℚ) (side : StairSide) (st : WalkState) (h : elevInv rh st) :
    elevInv rh (doFlight i p0 p1 isLast tc td w th ld rh side st) := by
  rw [doFlight_eq]
  have h1 : elevInv rh (flightTreadState i p0 p1 tc td w th rh side st) :=
    treadLoop_elevInv _ _ _ _ _ _ _ _ _ _ _ h
  split
  · exact ⟨by rw [treads_append, List.map_append, h1.1, treads_landingVolume]; simp, h1.2⟩
  · exact h1

lemma doFlight_landings (i : ℕ) (p0 p1 : Vec3) (isLast : Bool) (tc : ℕ)
    (td w th ld rh : ℚ) (side : StairSide) (st : WalkState) :
    landings (doFlight i p0 p1 isLast tc td w th ld rh side st).out
      = landings st.out ++
        (if isLast = false ∧ (flightTreadState i p0 p1 tc td w th rh side st).step < tc
         then [landingVolume i (steps_here p0 p1 td) (flight_base p0 p1 w side)
           (segment_direction p0 p1) (left_vector (segment_direction p0 p1)) td ld w th
           (flightTreadState i p0 p1 tc td w th rh side st).zAcc]
         else []) := by
  rw [doFlight_eq]
  have h1 : landings (flightTreadState i p0 p1 tc td w th rh side st).out
      = landings st.out := treadLoop_landings _ _ _ _ _ _ _ _ _ _ _
  split
  · rw [landings_append, h1, landings_landingVolume]
  · rw [h1, List.append_nil]

lemma doFlight_mem (i : ℕ) (p0 p1 : Vec3) (isLast : Bool) (tc : ℕ)
    (td w th ld rh : ℚ) (side : StairSide) (st : WalkState) (v : Volume)
    (hv : v ∈ (doFlight i p0 p1 isLast tc td w th ld rh side st).out) :
    v ∈ st.out ∨
      (∃ s z, v = treadVolume i s (flight_base p0 p1 w side) (segment_direction p0 p1)
        (left_vector (segment_direction p0 p1)) td w th z) ∨
      (∃ z, v = landingVolume i (steps_here p0 p1 td) (flight_base p0 p1 w side)
        (segment_direction p0 p1) (left_vector (segment_direction p0 p1)) td ld w th z) := by
  rw [doFlight_eq] at hv
  have key : ∀ u, u ∈ (flightTreadState i p0 p1 tc td w th rh side st).out →
      u ∈ st.out ∨ ∃ s z, u = treadVolume i s (flight_base p0 p1 w side)
        (segment_direction p0 p1) (left_vector (segment_direction p0 p1)) td w th z :=
    fun u hu => treadLoop_mem _ _ _ _ _ _ _ _ _ _ _ _ hu
  split at hv
  · rcases List.mem_append.mp hv with h1 | h1
    · rcases key v h1 with h2 | h2
      · exact Or.inl h2
      · exact Or.inr (Or.inl h2)
    · exact Or.inr (Or.inr ⟨_, List.mem_singleton.mp h1⟩)
  · rcases key v hv with h2 | h2
    · exact Or.inl h2
    · exact Or.inr (Or.inl h2)

/-! ## Structural lemmas about the whole walk -/

lemma walkFlights_step (tc : ℕ) (td w th ld rh : ℚ) (side : StairSide)
    (i : ℕ) (pts : List Vec3) (st : WalkState) (h : st.step ≤ tc) :
    (walkFlights tc td w th ld rh side i pts st).step
      = min (st.step + (flight_caps td pts).sum) tc := by
  induction pts generalizing i st with
  | nil =>
      rw [show walkFlights tc td w th ld rh side i [] st = st from rfl]
      simp [flight_caps]
      omega
  | cons p rest ih =>
      cases rest with
      | nil =>
          rw [show walkFlights tc td w th ld rh side i [p] st = st from rfl]
          simp [flight_caps]
          omega
      | cons p1 rest1 =>
          rw [walkFlights]
          have hstep := doFlight_step i p p1 (rest1.isEmpty) tc td w th ld rh side st
          have hle : (doFlight i p p1 (rest1.isEmpty) tc td w th ld rh side st).step ≤ tc := by
            omega
          rw [ih _ _ hle, hstep]
          show min (max st.step (min (st.step + (steps_here p p1 td).toNat) tc)
              + (flight_caps td (p1 :: rest1)).sum) tc
            = min (st.step + (flight_caps td (p :: p1 :: rest1)).sum) tc
          rw [show flight_caps td (p :: p1 :: rest1)
              = (steps_here p p1 td).toNat :: flight_caps td (p1 :: rest1) from rfl]
          simp only [List.sum_cons]
          omega

lemma walkFlights_elevInv (tc : ℕ) (td w th ld rh : ℚ) (side : StairSide)
    (i : ℕ) (pts : List Vec3) (st : WalkState) (h : elevInv rh st) :
    elevInv rh (walkFlights tc td w th ld rh side i pts st) := by
  induction pts generalizing i st with
  | nil => exact h
  | cons p rest ih =>
      cases rest with
      | nil => exact h
      | cons p1 rest1 =>
          rw [walkFlights]
          exact ih _ _ (doFlight_elevInv _ _ _ _ _ _ _ _ _ _ _ _ h)

lemma walkFlights_landings_le (tc : ℕ) (td w th ld rh : ℚ) (side : StairSide)
    (i : ℕ) (pts : List Vec3) (st : WalkState) :
    (landings (walkFlights tc td w th ld rh side i pts st).out).length
      ≤ (landings st.out).length + (pts.length - 2) := by
  induction pts generalizing i st with
  | nil => simp [show walkFlights tc td w th ld rh side i [] st = st from rfl]
  | cons p rest ih =>
      cases rest with
      | nil => simp [show walkFlights tc td w th ld rh side i [p] st = st from rfl]
      | cons p1 rest1 =>
          rw [walkFlights]
          refine le_trans (ih _ _) ?_
          have hland := doFlight_landings i p p1 (rest1.isEmpty) tc td w th ld rh side st
          have hlen : (landings (doFlight i p p1 (rest1.isEmpty) tc td w th ld rh side st).out).length
              ≤ (landings st.out).length + (if rest1.isEmpty then 0 else 1) := by
            rw [hland, List.length_append]
            split
            · rename_i hcond
              cases rest1 with
              | nil => simp_all
              | cons a b => simp
            · simp
          cases rest1 with
          | nil => simp_all
          | cons a b =>
              simp only [List.isEmpty_cons, Bool.false_eq_true, reduceIte,
                List.length_cons] at hlen ⊢
              omega

lemma riser_height_pos (total nominal : ℚ) (ht : 0 < total) :
    0 < riser_height total nominal := by
  have h := riser_count_ge_one total nominal
  rw [riser_height]
  apply div_pos ht
  exact_mod_cast (by omega : (0 : ℤ) < riser_count total nominal)

/-- C1: global tread budget.  For every multi-waypoint path and positive
parameters, (a) the number of treads in the emission log is at most
`tread_count`; (b) it equals `tread_count` whenever the flight capacities
`⌊segment_length/tread_depth⌋` sum to at least `tread_count`; (c) once
`current_step` has reached `tread_count`, the rest of the traversal emits
nothing at all (the walk from any saturated state is the identity). -/
theorem C1_global_tread_budget (pts : List Vec3) (total nominal td w : ℚ)
    (side : StairSide) (th ld : ℚ)
    (hpts : 2 ≤ pts.length) (ht : 0 < total) (hn : 0 < nominal) (htd : 0 < td) :
    (treads (stair_walk pts total nominal td w side th ld).out).length
        ≤ tread_countN total nominal ∧
    (tread_countN total nominal ≤ (flight_caps td pts).sum →
      (treads (stair_walk pts total nominal td w side th ld).out).length
        = tread_countN total nominal) ∧
    (∀ (i : ℕ) (rest : List Vec3) (st : WalkState),
      tread_countN total nominal ≤ st.step →
      walkFlights (tread_countN total nominal) td w th ld
        (riser_height total nominal) side i rest st = st) := by
  have hinv : elevInv (riser_height total nominal)
      (stair_walk pts total nominal td w side th ld) :=
    walkFlights_elevInv _ _ _ _ _ _ _ _ _ _ (elevInv_init _)
  have hlen := elevInv_treads_length _ _ hinv
  have hstep : (stair_walk pts total nominal td w side th ld).step
      = min (0 + (flight_caps td pts).sum) (tread_countN total nominal) :=
    walkFlights_step _ _ _ _ _ _ _ _ _ _ (Nat.zero_le _)
  refine ⟨?_, ?_, fun i rest st h => walkFlights_fix _ _ _ _ _ _ _ _ _ _ h⟩
  · rw [hlen, hstep]
    omega
  · intro hsum
    rw [hlen, hstep]
    omega

/-- Witness for `C1_global_tread_budget` on the 3-waypoint scenario-C path. -/
theorem C1_witness :
    (treads (stair_walk [⟨0, 0, 0⟩, ⟨2000, 0, 0⟩, ⟨2000, 1500, 0⟩] 3000 170 270 1200
        .center 150 270).out).length ≤ tread_countN 3000 170 ∧
    (tread_countN 3000 170
        ≤ (flight_caps 270 [⟨0, 0, 0⟩, ⟨2000, 0, 0⟩, ⟨2000, 1500, 0⟩]).sum →
      (treads (stair_walk [⟨0, 0, 0⟩, ⟨2000, 0, 0⟩, ⟨2000, 1500, 0⟩] 3000 170 270 1200
        .center 150 270).out).length = tread_countN 3000 170) ∧
    (∀ (i : ℕ) (rest : List Vec3) (st : WalkState),
      tread_countN 3000 170 ≤ st.step →
      walkFlights (tread_countN 3000 170) 270 1200 150 270
        (riser_height 3000 170) .center i rest st = st) :=
  C1_global_tread_budget [⟨0, 0, 0⟩, ⟨2000, 0, 0⟩, ⟨2000, 1500, 0⟩] 3000 170 270 1200
    .center 150 270 (by norm_num) (by norm_num) (by norm_num) (by norm_num)

/-- C3: elevation monotonicity.  In the emission log, the `k`-th tread
(counted from 0 across the whole traversal) has elevation
`k · riser_height`; consecutive treads strictly increase by exactly
`riser_height`; and the elevation accumulator equals
(number of emitted treads) · riser_height — it advances only when a tread
is emitted, never for a landing. -/
theorem C3_elevation_monotonicity (pts : List Vec3) (total nominal td w : ℚ)
    (side : StairSide) (th ld : ℚ) (ht : 0 < total) (hn : 0 < nominal) :
    (treads (stair_walk pts total nominal td w side th ld).out).map Volume.elev
      = List.map (fun k : ℕ => (k : ℚ) * riser_height total nominal)
          (List.range
            (treads (stair_walk pts total nominal td w side th ld).out).length) ∧
    List.Chain' (fun a b => b = a + riser_height total nominal ∧ a < b)
      ((treads (stair_walk pts total nominal td w side th ld).out).map Volume.elev) ∧
    (stair_walk pts total nominal td w side th ld).zAcc
      = ((treads (stair_walk pts total nominal td w side th ld).out).length : ℚ)
          * riser_height total nominal := by
  have hinv : elevInv (riser_height total nominal)
      (stair_walk pts total nominal td w side th ld) :=
    walkFlights_elevInv _ _ _ _ _ _ _ _ _ _ (elevInv_init _)
  have hlen := elevInv_treads_length _ _ hinv
  have hrh := riser_height_pos total nominal ht
  have hmap : (treads (stair_walk pts total nominal td w side th ld).out).map Volume.elev
      = List.map (fun k : ℕ => (k : ℚ) * riser_height total nominal)
          (List.range
            (treads (stair_walk pts total nominal td w side th ld).out).length) := by
    rw [hinv.1, hlen]
  refine ⟨hmap, ?_, by rw [hinv.2, hlen]⟩
  rw [hmap]
  rw [List.chain'_iff_get]
  intro k hk
  simp only [List.length_map, List.length_range] at hk
  rw [List.get_map, List.get_map]
  simp only [List.get_eq_getElem, List.getElem_range]
  constructor
  · push_cast
    ring
  · have : ((k : ℚ)) < ((k + 1 : ℕ) : ℚ) := by
      push_cast
      linarith
    exact mul_lt_mul_of_pos_right this hrh

/-- Witness for `C3_elevation_monotonicity` on the scenario-C path. -/
theorem C3_witness :
    (treads (stair_walk [⟨0, 0, 0⟩, ⟨2000, 0, 0⟩, ⟨2000, 1500, 0⟩] 3000 170 270 1200
        .center 150 270).out).map Volume.elev
      = List.map (fun k : ℕ => (k : ℚ) * riser_height 3000 170)
          (List.range
            (treads (stair_walk [⟨0, 0, 0⟩, ⟨2000, 0, 0⟩, ⟨2000, 1500, 0⟩] 3000 170 270
              1200 .center 150 270).out).length) ∧
    List.Chain' (fun a b => b = a + riser_height 3000 170 ∧ a < b)
      ((treads (stair_walk [⟨0, 0, 0⟩, ⟨2000, 0, 0⟩, ⟨2000, 1500, 0⟩] 3000 170 270 1200
        .center 150 270).out).map Volume.elev) ∧
    (stair_walk [⟨0, 0, 0⟩, ⟨2000, 0, 0⟩, ⟨2000, 1500, 0⟩] 3000 170 270 1200
        .center 150 270).zAcc
      = ((treads (stair_walk [⟨0, 0, 0⟩, ⟨2000, 0, 0⟩, ⟨2000, 1500, 0⟩] 3000 170 270 1200
          .center 150 270).out).length : ℚ) * riser_height 3000 170 :=
  C3_elevation_monotonicity [⟨0, 0, 0⟩, ⟨2000, 0, 0⟩, ⟨2000, 1500, 0⟩] 3000 170 270 1200
    .center 150 270 (by norm_num) (by norm_num)

/-- C4: landing emission.  (a) The number of landings in the log is at
most (number of flights − 1) = `pts.length − 2`; (b) a 2-waypoint path
emits zero landings; (c) per flight, exactly one landing is appended
after the flight's treads iff the flight is not the last one and
`current_step < tread_count` at that point; (d) a landing is placed at
the flight base advanced by `steps_here · tread_depth` along `forward`,
at the current elevation. -/
theorem C4_landing_emission (pts : List Vec3) (total nominal td w : ℚ)
    (side : StairSide) (th ld : ℚ) (hpts : 2 ≤ pts.length)
    (ht : 0 < total) (hn : 0 < nominal) (htd : 0 < td) :
    (landings (stair_walk pts total nominal td w side th ld).out).length
        ≤ pts.length - 2 ∧
    (pts.length = 2 →
      landings (stair_walk pts total nominal td w side th ld).out = []) ∧
    (∀ (i : ℕ) (p0 p1 : Vec3) (isLast : Bool) (tc : ℕ) (st : WalkState),
      landings (doFlight i p0 p1 isLast tc td w th ld
          (riser_height total nominal) side st).out
        = landings st.out ++
          (if isLast = false ∧
              (flightTreadState i p0 p1 tc td w th
                (riser_height total nominal) side st).step < tc
           then [landingVolume i (steps_here p0 p1 td) (flight_base p0 p1 w side)
             (segment_direction p0 p1) (left_vector (segment_direction p0 p1)) td ld w th
             (flightTreadState i p0 p1 tc td w th
               (riser_height total nominal) side st).zAcc]
           else [])) ∧
    (∀ (i : ℕ) (sh : ℤ) (b dv lv : Vec3) (z : ℚ),
      (landingVolume i sh b dv lv td ld w th z).origin
        = Vec3.add (Vec3.add b (Vec3.smul ((sh : ℚ) * td) dv)) (Vec3.smul z Vec3.zAxis) ∧
      (landingVolume i sh b dv lv td ld w th z).elev = z) := by
  refine ⟨?_, ?_, fun i p0 p1 isLast tc st => doFlight_landings _ _ _ _ _ _ _ _ _ _ _ _,
    fun i sh b dv lv z => ⟨rfl, rfl⟩⟩
  · have h := walkFlights_landings_le (tread_countN total nominal) td w th ld
      (riser_height total nominal) side 0 pts ⟨0, 0, []⟩
    simpa [landings] using h
  · intro h2
    match pts, h2 with
    | [p0, p1], _ =>
        show landings (walkFlights (tread_countN total nominal) td w th ld
          (riser_height total nominal) side 0 [p0, p1] ⟨0, 0, []⟩).out = []
        have hw1 : ∀ st : WalkState, walkFlights (tread_countN total nominal) td w th ld
            (riser_height total nominal) side 1 [p1] st = st := fun st => rfl
        rw [walkFlights, hw1, doFlight_landings]
        simp [landings]

/-- Witness for `C4_landing_emission` on the scenario-C path. -/
theorem C4_witness :
    (landings (stair_walk [⟨0, 0, 0⟩, ⟨2000, 0, 0⟩, ⟨2000, 1500, 0⟩] 3000 170 270 1200
        .center 150 270).out).length
      ≤ ([(⟨0, 0, 0⟩ : Vec3), ⟨2000, 0, 0⟩, ⟨2000, 1500, 0⟩] : List Vec3).length - 2 :=
  (C4_landing_emission [⟨0, 0, 0⟩, ⟨2000, 0, 0⟩, ⟨2000, 1500, 0⟩] 3000 170 270 1200
    .center 150 270 (by norm_num) (by norm_num) (by norm_num) (by norm_num)).1

/-- C6: lateral alignment.  The offset applied along `left` is `−width/2`
for `center`, `0` for `left` and `−width` for `right`; it enters the
flight base once per segment, and every tread and landing of a flight
shares that base (its origin is the base advanced along the flight's
`forward` and world-up only). -/
theorem C6_lateral_alignment (w : ℚ) (hw : 0 < w) :
    alignment_offset w .center = -(w / 2) ∧
    alignment_offset w .left = 0 ∧
    alignment_offset w .right = -w ∧
    (∀ (p0 p1 : Vec3) (side : StairSide),
      flight_base p0 p1 w side
        = Vec3.add p0 (Vec3.smul (alignment_offset w side)
            (left_vector (segment_direction p0 p1)))) ∧
    (∀ (i : ℕ) (p0 p1 : Vec3) (isLast : Bool) (tc : ℕ) (td th ld rh : ℚ)
      (side : StairSide) (st : WalkState) (v : Volume),
      v ∈ (doFlight i p0 p1 isLast tc td w th ld rh side st).out →
      v ∈ st.out ∨
        (v.xDir = segment_direction p0 p1 ∧
         v.yDir = left_vector (segment_direction p0 p1) ∧
         v.origin = Vec3.add (Vec3.add (flight_base p0 p1 w side)
            (Vec3.smul ((v.sIndex : ℚ) * td) v.xDir)) (Vec3.smul v.elev Vec3.zAxis))) := by
  refine ⟨by rw [alignment_offset]; ring, rfl, rfl, fun p0 p1 side => rfl, ?_⟩
  intro i p0 p1 isLast tc td th ld rh side st v hv
  rcases doFlight_mem i p0 p1 isLast tc td w th ld rh side st v hv with h | ⟨s, z, h⟩ | ⟨z, h⟩
  · exact Or.inl h
  · subst h
    refine Or.inr ⟨rfl, rfl, ?_⟩
    simp [treadVolume]
  · subst h
    refine Or.inr ⟨rfl, rfl, ?_⟩
    simp [landingVolume]

/-- Witness for `C6_lateral_alignment` at `w = 1200`. -/
theorem C6_witness :
    alignment_offset 1200 .center = -(1200 / 2) ∧
    alignment_offset 1200 .left = 0 ∧
    alignment_offset 1200 .right = -1200 :=
  let h := C6_lateral_alignment 1200 (by norm_num)
  ⟨h.1, h.2.1, h.2.2.1⟩

/-- C7: failure semantics and error eagerness.  The only errors are the
two path-normalization errors, raised independently of all layout
parameters and carrying no partial output; a guide that coerces to ≥ 2
points always yields an `ok` result; a zero-length segment contributes
zero steps to its flight; a zero tread budget makes the whole traversal
emit nothing. -/
theorem C7_failure_semantics (total nominal td w : ℚ) (side : StairSide) (th ld : ℚ)
    (ht : 0 < total) (hn : 0 < nominal) (htd : 0 < td) :
    stair_from_polyline .notACurve total nominal td w side th ld
        = .error .invalidGuide ∧
    stair_from_polyline .notAPolyline total nominal td w side th ld
        = .error .nonPolylineGuide ∧
    (∀ pts : List Vec3, pts.length < 2 →
      stair_from_polyline (.polyline pts) total nominal td w side th ld
        = .error .nonPolylineGuide) ∧
    (∀ pts : List Vec3, 2 ≤ pts.length →
      stair_from_polyline (.polyline pts) total nominal td w side th ld
        = .ok (stair_walk pts total nominal td w side th ld).out) ∧
    (∀ p : Vec3, steps_here p p td = 0) ∧
    (tread_countN total nominal = 0 → ∀ pts : List Vec3,
      (stair_walk pts total nominal td w side th ld).out = []) := by
  refine ⟨rfl, rfl, ?_, ?_, ?_, ?_⟩
  · intro pts h
    simp [stair_from_polyline, coerce_polyline, if_pos h]
  · intro pts h
    simp [stair_from_polyline, coerce_polyline, Nat.not_lt.mpr h]
  · intro p
    simp [steps_here, htd, Vec3.sqDist, Vec3.sqLen, Vec3.sub, sqrtFloorQ]
  · intro h pts
    exact stair_walk_tc_zero pts total nominal td w side th ld h

/-- Witness for `C7_failure_semantics` with default-like parameters. -/
theorem C7_witness :
    stair_from_polyline .notACurve 3000 170 270 1200 .center 150 270
        = .error .invalidGuide ∧
    stair_from_polyline .notAPolyline 3000 170 270 1200 .center 150 270
        = .error .nonPolylineGuide ∧
    stair_from_polyline (.polyline [⟨0, 0, 0⟩]) 3000 170 270 1200 .center 150 270
        = .error .nonPolylineGuide ∧
    steps_here ⟨7, 8, 9⟩ ⟨7, 8, 9⟩ 270 = 0 :=
  let h := C7_failure_semantics 3000 170 270 1200 .center 150 270
    (by norm_num) (by norm_num) (by norm_num)
  ⟨h.1, h.2.1, h.2.2.1 [⟨0, 0, 0⟩] (by norm_num), h.2.2.2.2.1 ⟨7, 8, 9⟩⟩

/-! ## Closed form of an uninterrupted tread loop, and scenario C -/

lemma treadLoop_range_closed (i : ℕ) (b d l : Vec3) (tc : ℕ) (td w th rh : ℚ)
    (n : ℕ) (st : WalkState) (h : st.step + n ≤ tc) :
    treadLoop i b d l tc td w th rh (List.range n) st =
      ⟨st.step + n, st.zAcc + (n : ℚ) * rh,
       st.out ++ List.map
         (fun j : ℕ => treadVolume i j b d l td w th (st.zAcc + (j : ℚ) * rh))
         (List.range n)⟩ := by
  induction n with
  | zero =>
      rw [List.range_zero, show treadLoop i b d l tc td w th rh [] st = st from rfl]
      cases st
      simp
  | succ n ih =>
      rw [List.range_succ, treadLoop_append, ih (by omega)]
      have hnb : ¬tc ≤ st.step + n := by omega
      simp only [treadLoop, hnb, if_false, List.map_append, List.map_cons, List.map_nil,
        List.append_assoc, WalkState.mk.injEq]
      refine ⟨by omega, by push_cast; ring, trivial⟩

lemma scenC_tcN : tread_countN 3000 170 = 17 := by
  norm_num [tread_countN, tread_count, riser_count, pyRound, Int.toNat]

lemma scenC_rh : riser_height 3000 170 = 500 / 3 := by
  rw [riser_height, riser_count_scenA]
  norm_num

lemma scenC_sh1 : steps_here ⟨0, 0, 0⟩ ⟨2000, 0, 0⟩ 270 = 7 := by
  norm_num [steps_here, sqrtFloorQ, Vec3.sqDist, Vec3.sqLen, Vec3.sub, Int.toNat]

lemma scenC_sh2 : steps_here ⟨2000, 0, 0⟩ ⟨2000, 1500, 0⟩ 270 = 5 := by
  norm_num [steps_here, sqrtFloorQ, Vec3.sqDist, Vec3.sqLen, Vec3.sub, Int.toNat]

lemma scenC_st1 :
    doFlight 0 ⟨0, 0, 0⟩ ⟨2000, 0, 0⟩ false 17 270 1200 150 270 (500 / 3) .center ⟨0, 0, []⟩
      = ⟨7, 3500 / 3,
         List.map (fun j : ℕ => treadVolume 0 j
             (flight_base ⟨0, 0, 0⟩ ⟨2000, 0, 0⟩ 1200 .center)
             (segment_direction ⟨0, 0, 0⟩ ⟨2000, 0, 0⟩)
             (left_vector (segment_direction ⟨0, 0, 0⟩ ⟨2000, 0, 0⟩))
             270 1200 150 ((j : ℚ) * (500 / 3))) (List.range 7)
           ++ [landingVolume 0 7 (flight_base ⟨0, 0, 0⟩ ⟨2000, 0, 0⟩ 1200 .center)
             (segment_direction ⟨0, 0, 0⟩ ⟨2000, 0, 0⟩)
             (left_vector (segment_direction ⟨0, 0, 0⟩ ⟨2000, 0, 0⟩))
             270 270 1200 150 (3500 / 3)]⟩ := by
  have hts : flightTreadState 0 ⟨0, 0, 0⟩ ⟨2000, 0, 0⟩ 17 270 1200 150 (500 / 3) .center
      ⟨0, 0, []⟩
      = ⟨7, 3500 / 3,
         List.map (fun j : ℕ => treadVolume 0 j
             (flight_base ⟨0, 0, 0⟩ ⟨2000, 0, 0⟩ 1200 .center)
             (segment_direction ⟨0, 0, 0⟩ ⟨2000, 0, 0⟩)
             (left_vector (segment_direction ⟨0, 0, 0⟩ ⟨2000, 0, 0⟩))
             270 1200 150 ((j : ℚ) * (500 / 3))) (List.range 7)⟩ := by
    rw [flightTreadState, scenC_sh1]
    rw [show ((7 : ℤ)).toNat = 7 from rfl]
    rw [treadLoop_range_closed _ _ _ _ _ _ _ _ _ 7 _ (by norm_num)]
    simp only [WalkState.mk.injEq, List.nil_append]
    refine ⟨trivial, by norm_num, ?_⟩
    apply List.map_congr_left
    intro j hj
    norm_num
  rw [doFlight_eq, hts, scenC_sh1]
  rw [if_pos ⟨rfl, by decide⟩]

lemma scenC_walk :
    stair_walk [⟨0, 0, 0⟩, ⟨2000, 0, 0⟩, ⟨2000, 1500, 0⟩] 3000 170 270 1200 .center 150 270
      = ⟨12, 2000,
         (List.map (fun j : ℕ => treadVolume 0 j
             (flight_base ⟨0, 0, 0⟩ ⟨2000, 0, 0⟩ 1200 .center)
             (segment_direction ⟨0, 0, 0⟩ ⟨2000, 0, 0⟩)
             (left_vector (segment_direction ⟨0, 0, 0⟩ ⟨2000, 0, 0⟩))
             270 1200 150 ((j : ℚ) * (500 / 3))) (List.range 7)
           ++ [landingVolume 0 7 (flight_base ⟨0, 0, 0⟩ ⟨2000, 0, 0⟩ 1200 .center)
             (segment_direction ⟨0, 0, 0⟩ ⟨2000, 0, 0⟩)
             (left_vector (segment_direction ⟨0, 0, 0⟩ ⟨2000, 0, 0⟩))
             270 270 1200 150 (3500 / 3)])
           ++ List.map (fun j : ℕ => treadVolume 1 j
             (flight_base ⟨2000, 0, 0⟩ ⟨2000, 1500, 0⟩ 1200 .center)
             (segment_direction ⟨2000, 0, 0⟩ ⟨2000, 1500, 0⟩)
             (left_vector (segment_direction ⟨2000, 0, 0⟩ ⟨2000, 1500, 0⟩))
             270 1200 150 (3500 / 3 + (j : ℚ) * (500 / 3))) (List.range 5)⟩ := by
  rw [stair_walk, scenC_tcN, scenC_rh]
  rw [walkFlights, walkFlights]
  rw [show ∀ st : WalkState, walkFlights 17 270 1200 150 270 (500 / 3) .center 2
      [⟨2000, 1500, 0⟩] st = st from fun _ => rfl]
  rw [show ([⟨2000, 1500, 0⟩] : List Vec3).isEmpty = false from rfl,
      show ([] : List Vec3).isEmpty = true from rfl]
  rw [scenC_st1]
  rw [doFlight_eq]
  rw [if_neg (by simp)]
  rw [flightTreadState, scenC_sh2]
  rw [show ((5 : ℤ)).toNat = 5 from rfl]
  rw [treadLoop_range_closed _ _ _ _ _ _ _ _ _ 5 _ (by norm_num)]
  simp only [WalkState.mk.injEq]
  exact ⟨trivial, by norm_num, trivial⟩

/-- C5: scenario C.  On the 3-waypoint guide `(0,0,0) → (2000,0,0) →
(2000,1500,0)` with `tread_depth = 270` and budget `tread_count = 17`
(from `total_height = 3000`, nominal riser `170`), the traversal emits
exactly `⌊2000/270⌋ = 7` treads for flight 0, then one landing, then
`min(⌊1500/270⌋, 10) = 5` treads for flight 1 and no trailing landing,
in that order. -/
theorem C5_scenario_C :
    steps_here ⟨0, 0, 0⟩ ⟨2000, 0, 0⟩ 270 = 7 ∧
    steps_here ⟨2000, 0, 0⟩ ⟨2000, 1500, 0⟩ 270 = 5 ∧
    tread_countN 3000 170 = 17 ∧
    ((stair_walk [⟨0, 0, 0⟩, ⟨2000, 0, 0⟩, ⟨2000, 1500, 0⟩] 3000 170 270 1200
        .center 150 270).out).map Volume.kind
      = [.tread, .tread, .tread, .tread, .tread, .tread, .tread, .landing,
         .tread, .tread, .tread, .tread, .tread] ∧
    ((stair_walk [⟨0, 0, 0⟩, ⟨2000, 0, 0⟩, ⟨2000, 1500, 0⟩] 3000 170 270 1200
        .center 150 270).out).map Volume.flight
      = [0, 0, 0, 0, 0, 0, 0, 0, 1, 1, 1, 1, 1] := by
  refine ⟨scenC_sh1, scenC_sh2, scenC_tcN, ?_, ?_⟩ <;>
  · rw [scenC_walk]
    simp [List.map_append, List.map_map, Function.comp, treadVolume, landingVolume]
    decide

/-- C10: the `breps` list keeps only the `Extrusion.Create` calls the
kernel accepted (`if ext:`), so it is never longer than the emission log;
with every creation failing, the returned list is empty while the step
counter and elevation accumulator still advanced (scenario C: 13 calls,
final `current_step = 12`, final `current_z = 2000`). -/
theorem C10_extrusion_oracle :
    (∀ (extOk : ℕ → Bool) (log : List Volume),
      (breps_of extOk log).length ≤ log.length) ∧
    (∀ log : List Volume, breps_of (fun _ => false) log = []) ∧
    ((stair_walk [⟨0, 0, 0⟩, ⟨2000, 0, 0⟩, ⟨2000, 1500, 0⟩] 3000 170 270 1200
        .center 150 270).out).length = 13 ∧
    (stair_walk [⟨0, 0, 0⟩, ⟨2000, 0, 0⟩, ⟨2000, 1500, 0⟩] 3000 170 270 1200
        .center 150 270).step = 12 ∧
    (stair_walk [⟨0, 0, 0⟩, ⟨2000, 0, 0⟩, ⟨2000, 1500, 0⟩] 3000 170 270 1200
        .center 150 270).zAcc = 2000 := by
  refine ⟨?_, ?_, ?_, ?_, ?_⟩
  · intro extOk log
    calc (breps_of extOk log).length
        ≤ (log.enum).length := by
          rw [breps_of, List.length_map]
          exact List.length_filter_le _ _
      _ = log.length := List.enum_length
  · intro log
    simp [breps_of]
  · rw [scenC_walk]
    simp
  · rw [scenC_walk]
  · rw [scenC_walk]
